import Mathlib

/-!
Verification development for the onboarding wizard of the Spanish tax-filing
assistant web app (React/TypeScript).  The definitions below are a shallow
embedding of the relevant handlers and data tables of the source files:

* `src/pages/Onboarding.tsx`               (wizard controller)
* `src/components/onboarding/FormFilling.tsx`  (method strategy selector)
* `src/components/onboarding/ai-chat-assistant/AiChatAssistant.tsx`
* `src/components/onboarding/form-upload/FormUpload.tsx`
* `src/components/onboarding/id-lookup/IdLookup.tsx`
* `src/components/onboarding/manual-form-filling/Manual-Form-Filling.tsx`
  and the alternate `ManualFormFilling` variant bundled after
  `src/components/forgot-password-form.tsx`.

Simulated timers are collapsed: a handler together with the state updates of
its timeout callback is modelled as a single transition, with the random draw
passed in as an explicit rational argument.  Purely presentational data
(icons, CSS, toast text that no claim mentions) is elided.
-/

/-! ## JavaScript helper semantics -/

/-- `Math.round` for a nonneg rational `num / den` (`den ≠ 0`):
`floor (num/den + 1/2)`, computed with natural division. -/
def jsRoundDiv (num den : Nat) : Nat :=
  (2 * num + den) / (2 * den)

/-- Whitespace characters skipped by `parseFloat` / `trim` (common subset). -/
def isJsWhitespace (c : Char) : Bool :=
  c = ' ' ∨ c = '\t' ∨ c = '\n' ∨ c = '\r'

/-- `isNaN(parseFloat(s))`: `parseFloat` returns `NaN` iff after leading
whitespace and an optional sign the string starts with neither a digit, nor
a dot followed by a digit, nor `Infinity`. -/
def jsParseFloatIsNaN (s : String) : Bool :=
  let l := s.toList.dropWhile isJsWhitespace
  let l := match l with
    | c :: rest => if c = '+' ∨ c = '-' then rest else c :: rest
    | [] => []
  match l with
  | [] => true
  | c :: rest =>
    if c.isDigit then false
    else if c = '.' then
      match rest with
      | d :: _ => !d.isDigit
      | [] => true
    else !(("Infinity".toList).isPrefixOf (c :: rest))

/-- `String.prototype.toLowerCase` on one char, for ASCII and the Latin-1
uppercase range (covers the Spanish accented capitals Á É Í Ó Ú Ü Ñ). -/
def jsLowerChar (c : Char) : Char :=
  if 'A' ≤ c ∧ c ≤ 'Z' then Char.ofNat (c.toNat + 32)
  else if 0xC0 ≤ c.toNat ∧ c.toNat ≤ 0xDE ∧ c.toNat ≠ 0xD7 then
    Char.ofNat (c.toNat + 32)
  else c

/-- `s.toLowerCase()` (char-wise; the inputs involved have no multi-char
case mappings). -/
def jsToLower (s : String) : String :=
  String.mk (s.data.map jsLowerChar)

/-- `s.trim()`: strip whitespace from both ends. -/
def jsTrim (s : String) : String :=
  String.mk
    (((s.data.dropWhile isJsWhitespace).reverse.dropWhile
      isJsWhitespace).reverse)

/-- `haystack.includes(needle)` on char lists. -/
def listIncludes : List Char → List Char → Bool
  | _, [] => true
  | [], _ :: _ => false
  | c :: rest, needle =>
    needle.isPrefixOf (c :: rest) || listIncludes rest needle

/-- `haystack.includes(needle)` for strings. -/
def strIncludes (haystack needle : String) : Bool :=
  needle.toList.isEmpty || listIncludes haystack.toList needle.toList

example : strIncludes "ya estoy listo" "listo" = true := by decide
example : strIncludes "hola" "listo" = false := by decide
example : jsToLower "LISTO Ñ" = "listo ñ" := by decide
example : jsParseFloatIsNaN "30000" = false := by decide
example : jsParseFloatIsNaN "" = true := by decide
example : jsParseFloatIsNaN "abc" = true := by decide
example : jsParseFloatIsNaN ".5" = false := by decide

/-! ## JSON-like values and the deep merge (FormUpload.tsx / IdLookup.tsx)

The mock records are nested objects with string leaves; arrays can occur as
runtime values of the untyped `Record<string, unknown>` parameters.  Objects
are association lists in insertion order, matching JS own-property order for
string keys. -/

inductive JValue where
  | str : String → JValue
  | obj : List (String × JValue) → JValue
  | arr : List JValue → JValue
deriving Repr

/-- `isObject(item)`: non-null, `typeof "object"`, not an array. -/
def isObject : JValue → Bool
  | .obj _ => true
  | _ => false

/-- Own enumerable string-keyed properties produced by an object spread
`{...v}`: an object's fields; an array's index properties; a string's
character index properties; `{}` would result for other primitives. -/
def spreadFields : JValue → List (String × JValue)
  | .obj fs => fs
  | .arr xs => xs.enum.map (fun p => (toString p.1, p.2))
  | .str s => s.toList.enum.map (fun p => (toString p.1, .str (String.singleton p.2)))

/-- `key in target`. -/
def hasKey (fs : List (String × JValue)) (k : String) : Bool :=
  fs.any (fun p => p.1 = k)

/-- `target[key]` (only consulted under a `hasKey` guard). -/
def getKey (fs : List (String × JValue)) (k : String) : JValue :=
  match fs.find? (fun p => p.1 = k) with
  | some p => p.2
  | none => .obj []

/-- `output[key] = v` / `Object.assign(output, {[key]: v})`: update in place
when the key exists (its position is kept), else append. -/
def setKey (fs : List (String × JValue)) (k : String) (v : JValue) :
    List (String × JValue) :=
  if hasKey fs k then
    fs.map (fun p => if p.1 = k then (k, v) else p)
  else fs ++ [(k, v)]

mutual

/-- `mergeDeep(target, source)` from `FormUpload.tsx` (lines 349–377):
`output = {...target}`; when both arguments are non-array objects, each
source key is assigned into `output`, recursing only when `source[key]` is a
non-array object and the key already exists in `target`. -/
def mergeDeepUpload : JValue → JValue → JValue
  | .obj tfs, .obj sfs => .obj (mergeFieldsUpload tfs tfs sfs)
  | t, _ => .obj (spreadFields t)

/-- The `Object.keys(source).forEach` loop of `mergeDeep` in `FormUpload.tsx`,
walking the source fields; `tfs` is the (fixed) target, `acc` the output. -/
def mergeFieldsUpload (tfs : List (String × JValue)) :
    List (String × JValue) → List (String × JValue) → List (String × JValue)
  | acc, [] => acc
  | acc, (k, sv) :: rest =>
    let v :=
      if isObject sv then
        if hasKey tfs k then mergeDeepUpload (getKey tfs k) sv else sv
      else sv
    mergeFieldsUpload tfs (setKey acc k v) rest

end

mutual

/-- `mergeDeep(target, source)` from `IdLookup.tsx` (lines 370–398);
textually identical to the FormUpload copy. -/
def mergeDeepLookup : JValue → JValue → JValue
  | .obj tfs, .obj sfs => .obj (mergeFieldsLookup tfs tfs sfs)
  | t, _ => .obj (spreadFields t)

/-- The source-keys loop of `mergeDeep` in `IdLookup.tsx`. -/
def mergeFieldsLookup (tfs : List (String × JValue)) :
    List (String × JValue) → List (String × JValue) → List (String × JValue)
  | acc, [] => acc
  | acc, (k, sv) :: rest =>
    let v :=
      if isObject sv then
        if hasKey tfs k then mergeDeepLookup (getKey tfs k) sv else sv
      else sv
    mergeFieldsLookup tfs (setKey acc k v) rest

end

mutual

/-- Reference deep-merge semantics as the spec words it: for every key of
source, if both `target[key]` and `source[key]` are non-array objects the
result is the recursive merge of the two, otherwise `source[key]` wins;
keys present only in target keep target's value. -/
def mergeSpec : JValue → JValue → JValue
  | .obj tfs, .obj sfs => .obj (mergeSpecFields tfs tfs sfs)
  | _, s => s

/-- Field walk of the reference semantics. -/
def mergeSpecFields (tfs : List (String × JValue)) :
    List (String × JValue) → List (String × JValue) → List (String × JValue)
  | acc, [] => acc
  | acc, (k, sv) :: rest =>
    let v :=
      if isObject sv ∧ hasKey tfs k ∧ isObject (getKey tfs k) then
        mergeSpec (getKey tfs k) sv
      else sv
    mergeSpecFields tfs (setKey acc k v) rest

end

mutual

/-- Shape compatibility: both arguments are non-array objects and, wherever
a source value is a non-array object whose key is present in the target, the
matching target value is one too (recursively).  On compatible pairs the
implementation and the reference semantics agree. -/
def mergeCompat : JValue → JValue → Bool
  | .obj tfs, .obj sfs => mergeCompatFields tfs sfs
  | _, _ => false

/-- Field-wise side condition of `mergeCompat`. -/
def mergeCompatFields (tfs : List (String × JValue)) :
    List (String × JValue) → Bool
  | [] => true
  | (k, sv) :: rest =>
    (if isObject sv then
      !(hasKey tfs k) || mergeCompat (getKey tfs k) sv
     else true) && mergeCompatFields tfs rest

end

example :
    mergeDeepUpload (.obj [("a", .str "1"), ("b", .obj [("c", .str "2")])])
      (.obj [("b", .obj [("d", .str "3")]), ("e", .str "4")]) =
    .obj [("a", .str "1"), ("b", .obj [("c", .str "2"), ("d", .str "3")]),
      ("e", .str "4")] := by
  simp [mergeDeepUpload, mergeFieldsUpload, setKey, hasKey, getKey, isObject,
    spreadFields]

example :
    mergeDeepUpload (.obj [("k", .arr [])])
      (.obj [("k", .obj [("a", .str "x")])]) = .obj [("k", .obj [])] := by
  simp [mergeDeepUpload, mergeFieldsUpload, setKey, hasKey, getKey, isObject,
    spreadFields]

/-! ## Wizard controller (`src/pages/Onboarding.tsx`)

`formSteps` has 6 entries: select-type, select-method, fill-form, review,
confirm, generate.  `activeStep` is modelled by its index 0–5; a `useEffect`
recomputes `progress = Math.round((currentStepIndex + 1) / 6 * 100)` whenever
the index changes, which we apply as part of each transition. -/

/-- Number of entries of `formSteps`. -/
def formStepsLength : Nat := 6

/-- State of `EnhancedOnboarding` (fields the claims are about). -/
structure OnbState where
  activeStep : Nat
  selectedForm : Option String
  selectedMethod : Option String
  progress : Nat
  sessionSaved : Bool
deriving Repr, DecidableEq

/-- The progress the `useEffect` computes for a given step index:
`Math.round(((currentStepIndex + 1) / formSteps.length) * 100)`. -/
def progressFor (idx : Nat) : Nat :=
  jsRoundDiv ((idx + 1) * 100) formStepsLength

/-- `handleNextStep`: advance when not on the last step, after which the
progress effect recomputes `progressFor` of the new index; the handler also
auto-saves the session when not yet saved (`if (!sessionSaved) saveSession()`
— in either case `sessionSaved` is `true` afterwards, which the single field
write below captures). -/
def handleNextStep (o : OnbState) : OnbState :=
  if o.activeStep < formStepsLength - 1 then
    { o with
      activeStep := o.activeStep + 1
      progress := progressFor (o.activeStep + 1)
      sessionSaved := true }
  else o

/-- `handlePreviousStep`: step back when not on the first step.  The handler
itself sets `progress = Math.round((currentIndex / formSteps.length) * 100)`
(with the pre-transition index) and the progress effect then overwrites it
with `progressFor` of the new index, which is the value that remains; the
C1 theorem proves it equals the handler's own formula. -/
def handlePreviousStep (o : OnbState) : OnbState :=
  if 0 < o.activeStep then
    { o with
      activeStep := o.activeStep - 1
      progress := progressFor (o.activeStep - 1) }
  else o

/-- The guard disabling the wizard-header Next button:
`(activeStep === "select-type" && !selectedForm) ||
 (activeStep === "select-method" && !selectedMethod)`. -/
def nextButtonDisabled (o : OnbState) : Bool :=
  (o.activeStep = 0 && o.selectedForm = none) ||
  (o.activeStep = 1 && o.selectedMethod = none)

/-- Initial `EnhancedOnboarding` state after mount (the progress effect has
run once on the initial index 0). -/
def onbInit : OnbState :=
  { activeStep := 0, selectedForm := none, selectedMethod := none,
    progress := progressFor 0, sessionSaved := false }

/-! ## Method strategy selector (`src/components/onboarding/FormFilling.tsx`) -/

/-- The `step` prop of `FormFilling`. -/
inductive FStep where
  | formType
  | formMethod
deriving Repr, DecidableEq

/-- Local state of `FormFilling`. -/
structure FFState where
  selectedForm : Option String
  selectedMethod : Option String
  showAiChat : Bool
  showManualForm : Bool
  showUploadForm : Bool
  showIdLookup : Bool
deriving Repr, DecidableEq

/-- Initial `FormFilling` state. -/
def ffInit : FFState :=
  { selectedForm := none, selectedMethod := none, showAiChat := false,
    showManualForm := false, showUploadForm := false, showIdLookup := false }

/-- Calls `FormFilling` makes to its parent (plus the toast it shows in the
"ai" branch of `handleContinue`). -/
inductive FFEvent where
  | onNext
  | onPrevious
  | setStep : FStep → FFEvent
  | toastSuccess : String → FFEvent
deriving Repr, DecidableEq

/-- Ids of the `formTypes` catalog in `FormFilling.tsx`. -/
def formTypeIds : List String :=
  ["modelo100", "modelo303", "modelo349", "modelo390"]

/-- Ids of the `formMethods` catalog. -/
def formMethodIds : List String :=
  ["manual", "ai", "upload", "lookup"]

/-- `handleFormTypeSelect(formId)`. -/
def handleFormTypeSelect (formId : String) (f : FFState) : FFState :=
  { f with selectedForm := some formId }

/-- `handleMethodSelect(methodId)`: select the method, reset all component
visibility, then show the view matching the id. -/
def handleMethodSelect (methodId : String) (f : FFState) : FFState :=
  { f with
    selectedMethod := some methodId
    showAiChat := methodId = "ai"
    showManualForm := methodId = "manual"
    showUploadForm := methodId = "upload"
    showIdLookup := methodId = "lookup" }

/-- `handleContinue()`: phase 1 with a form selected moves to phase 2 and
resets the method selection; phase 2 with method "ai" only shows a toast,
any other selected method calls `onNext()`; otherwise nothing happens. -/
def handleContinue (step : FStep) (f : FFState) : FFState × List FFEvent :=
  match step, f.selectedForm with
  | .formType, some _ =>
    ({ f with
        selectedMethod := none
        showAiChat := false
        showManualForm := false
        showUploadForm := false
        showIdLookup := false },
     [.setStep .formMethod])
  | _, _ =>
    match step, f.selectedMethod with
    | .formMethod, some m =>
      if m = "ai" then (f, [.toastSuccess "AI assistant activated"])
      else (f, [.onNext])
    | _, _ => (f, [])

/-- `handleCancel()`: clear the method selection and hide every strategy. -/
def handleCancel (f : FFState) : FFState :=
  { f with
    selectedMethod := none
    showAiChat := false
    showManualForm := false
    showUploadForm := false
    showIdLookup := false }

/-- Guard disabling the Continue button:
`(step === "form-type" && !selectedForm) ||
 (step === "form-method" && !selectedMethod)`. -/
def continueDisabled (step : FStep) (f : FFState) : Bool :=
  (step = FStep.formType && f.selectedForm = none) ||
  (step = FStep.formMethod && f.selectedMethod = none)

/-! ## The composed wizard (Onboarding.tsx mounting FormFilling)

`renderMainContent` mounts `FormFilling` with
`step = activeStep === "select-type" ? "form-type" : "form-method"`,
`setStep = s => setActiveStep(s === "form-type" ? "select-type" : "select-method")`,
`onNext = handleNextStep`, `onPrevious = handlePreviousStep`.  It also passes
`onFormSelect` / `onMethodSelect` props, but `FormFillingProps` declares
neither and `FormFilling` never calls them, so no transition below invokes
`handleFormSelection` / `handleMethodSelection`. -/

/-- Composed state: the page plus the mounted `FormFilling`. -/
structure Sys where
  o : OnbState
  f : FFState
deriving Repr, DecidableEq

/-- The `step` prop `FormFilling` receives. -/
def fStepOf (o : OnbState) : FStep :=
  if o.activeStep = 0 then .formType else .formMethod

/-- Interpretation of one `FormFilling` parent call by `EnhancedOnboarding`
(the `setStep` prop re-fires the progress effect via the index change). -/
def applyFFEvent (o : OnbState) : FFEvent → OnbState
  | .onNext => handleNextStep o
  | .onPrevious => handlePreviousStep o
  | .setStep st =>
    let i := if st = FStep.formType then 0 else 1
    { o with activeStep := i, progress := progressFor i }
  | .toastSuccess _ => o

/-- Interpretation of a call sequence. -/
def applyFFEvents (o : OnbState) (evs : List FFEvent) : OnbState :=
  evs.foldl applyFFEvent o

/-- The main selector card is rendered (no full-screen strategy replaced it). -/
def mainCardShown (f : FFState) : Bool :=
  !(f.showManualForm || f.showUploadForm || f.showIdLookup)

/-- One user interaction of the composed wizard, with the guards under which
the corresponding control is rendered and enabled in the source. -/
inductive WStep : Sys → Sys → Prop where
  | selectFormCard (s : Sys) (id : String) (hid : id ∈ formTypeIds)
      (hcard : mainCardShown s.f = true) (hstep : fStepOf s.o = .formType) :
      WStep s ⟨s.o, handleFormTypeSelect id s.f⟩
  | selectMethodCard (s : Sys) (id : String) (hid : id ∈ formMethodIds)
      (hcard : mainCardShown s.f = true) (hstep : fStepOf s.o = .formMethod) :
      WStep s ⟨s.o, handleMethodSelect id s.f⟩
  | clickContinue (s : Sys) (hcard : mainCardShown s.f = true)
      (hen : continueDisabled (fStepOf s.o) s.f = false) :
      WStep s ⟨applyFFEvents s.o (handleContinue (fStepOf s.o) s.f).2,
        (handleContinue (fStepOf s.o) s.f).1⟩
  | clickBackToFormTypes (s : Sys) (hcard : mainCardShown s.f = true)
      (hstep : fStepOf s.o = .formMethod) :
      WStep s ⟨applyFFEvent s.o (.setStep .formType),
        { s.f with
          showAiChat := false
          showManualForm := false
          showUploadForm := false
          showIdLookup := false }⟩
  | clickPhase1Previous (s : Sys) (hcard : mainCardShown s.f = true)
      (hstep : fStepOf s.o = .formType) :
      WStep s ⟨handlePreviousStep s.o, s.f⟩
  | strategyComplete (s : Sys)
      (hmounted : (s.f.showManualForm || s.f.showUploadForm ||
        s.f.showIdLookup) = true) :
      WStep s ⟨handleNextStep s.o, s.f⟩
  | strategyCancel (s : Sys)
      (hmounted : (s.f.showManualForm || s.f.showUploadForm ||
        s.f.showIdLookup) = true) :
      WStep s ⟨s.o, handleCancel s.f⟩
  | wizardNextButton (s : Sys) (hlast : s.o.activeStep < formStepsLength - 1)
      (hen : nextButtonDisabled s.o = false) :
      WStep s ⟨handleNextStep s.o, s.f⟩
  | wizardPreviousButton (s : Sys) (hfirst : 0 < s.o.activeStep) :
      WStep s ⟨handlePreviousStep s.o, s.f⟩
  | remountFormFilling (s : Sys) :
      WStep s ⟨s.o, ffInit⟩

/-- Initial composed state. -/
def sysInit : Sys := ⟨onbInit, ffInit⟩

/-- States reachable from the initial state by user interactions. -/
def SysReachable (s : Sys) : Prop :=
  Relation.ReflTransGen WStep sysInit s

/-! ## AI chat assistant (`AiChatAssistant.tsx`)

Message timestamps and the canned reply text are elided (no verified
property depends on them); ids, roles, attachments, ordering, the progress
heuristic and the completion logic are modelled faithfully. -/

/-- Client-side file metadata attached to a chat message. -/
structure ChatAttachment where
  name : String
  size : Nat
  type : String
deriving Repr, DecidableEq

/-- Role of a chat message. -/
inductive ChatRole where
  | user
  | assistant
deriving Repr, DecidableEq

/-- One chat message (content text elided). -/
structure ChatMsg where
  id : Nat
  role : ChatRole
  attachments : List ChatAttachment
deriving Repr, DecidableEq

/-- Local state of `AiChatAssistant`. -/
structure ChatState where
  messages : List ChatMsg
  input : String
  attachments : List ChatAttachment
  isLoading : Bool
  showSuggestions : Bool
  isCompleted : Bool
  progress : ℚ
deriving Repr, DecidableEq

/-- Initial chat state: the one greeting message, empty input. -/
def chatInit : ChatState :=
  { messages := [{ id := 1, role := .assistant, attachments := [] }]
    input := ""
    attachments := []
    isLoading := false
    showSuggestions := true
    isCompleted := false
    progress := 0 }

/-- The fixed completion phrases `handleSendMessage` checks the lowercased
input against. -/
def donePhrases : List String :=
  ["terminar", "finalizar", "completar", "acabar", "listo", "acabé",
   "terminé"]

/-- `input.toLowerCase().includes(p)` for some completion phrase `p`. -/
def containsDonePhrase (input : String) : Bool :=
  donePhrases.any (fun p => strIncludes (jsToLower input) p)

/-- The conversation-progress heuristic of the `useEffect` tracking
`messages`: 0 up to one message, `min 80 (len * 10)` below ten messages,
then `min 95 (80 + (len - 10) * 1.5)`. -/
def chatProgressOf (len : Nat) : ℚ :=
  if len ≤ 1 then 0
  else if len < 10 then min 80 (len * 10)
  else min 95 (80 + (len - 10) * (3 / 2))

/-- `handleSendMessage` together with its 1500 ms reply callback: a no-op
when both the trimmed input and the attachment list are empty; otherwise the
user message (id `messages.length + 1`) and the canned assistant reply
(id `messages.length + 2`) are appended, the input cleared, suggestions
hidden, loading ends, the progress effect refires, and `isCompleted` is set
when the (pre-clear) input contains a completion phrase. -/
def handleSendMessage (s : ChatState) : ChatState :=
  if jsTrim s.input = "" ∧ s.attachments = [] then s
  else
    let n := s.messages.length
    let msgs := s.messages ++
      [{ id := n + 1, role := .user, attachments := s.attachments },
       { id := n + 2, role := .assistant, attachments := [] }]
    { s with
      messages := msgs
      input := ""
      attachments := []
      showSuggestions := false
      isLoading := false
      isCompleted := s.isCompleted || containsDonePhrase s.input
      progress := chatProgressOf msgs.length }

/-- Calls the chat makes to its surroundings. -/
inductive ChatEvent where
  | onCompleteInvoked
  | toastSuccess : String → ChatEvent
deriving Repr, DecidableEq

/-- `handleComplete()`: set progress to 100, toast, and invoke the optional
`onComplete` prop when it was provided. -/
def chatHandleComplete (onCompleteProvided : Bool) (s : ChatState) :
    ChatState × List ChatEvent :=
  ({ s with progress := 100 },
   [.toastSuccess "Asistente completado"] ++
     (if onCompleteProvided then [.onCompleteInvoked] else []))

/-- `FormFilling.tsx` line 295 mounts
`<AiChatAssistant taxFormType={selectedFormDetails?.name} />`:
no `onComplete` prop is passed. -/
def formFillingProvidesChatOnComplete : Bool := false

/-! ## Upload strategy (`FormUpload.tsx`) -/

/-- `UploadStatus`. -/
inductive UploadStatus where
  | idle
  | uploading
  | processing
  | success
  | error
deriving Repr, DecidableEq

/-- The selected file (name plus its object-URL preview). -/
structure FileRec where
  name : String
  preview : Option String
deriving Repr, DecidableEq

/-- Local state of `FormUpload`. -/
structure UploadState where
  file : Option FileRec
  uploadProgress : Nat
  uploadStatus : UploadStatus
  extractedData : Option JValue
  retryCount : Nat
  processingError : Option String
deriving Repr

/-- Resource / parent-callback effects of the upload handlers. -/
inductive UpEffect where
  | revokeURL : String → UpEffect
  | createURL : String → UpEffect
  | onCancel
deriving Repr, DecidableEq

/-- The base mock record `handleUpload` builds on success. -/
def baseMockData : JValue :=
  .obj [
    ("personalInfo", .obj [
      ("name", .str "Juan García López"),
      ("nif", .str "12345678A"),
      ("address", .str "Calle Mayor 1, 28001 Madrid"),
      ("postalCode", .str "28001"),
      ("city", .str "Madrid"),
      ("province", .str "Madrid"),
      ("phone", .str "600123456"),
      ("email", .str "juan.garcia@example.com")]),
    ("income", .obj [
      ("totalSalary", .str "42000.00"),
      ("financialIncome", .str "1500.00"),
      ("capitalGains", .str "0.00"),
      ("rentalIncome", .str "0.00"),
      ("businessIncome", .str "0.00")]),
    ("deductions", .obj [
      ("socialSecurity", .str "2688.00"),
      ("pensionContributions", .str "3000.00"),
      ("totalDeductions", .str "5688.00"),
      ("mortgageInterest", .str "1200.00"),
      ("donations", .str "500.00")]),
    ("result", .obj [
      ("taxDue", .str "8750.00"),
      ("refund", .str "0.00")]),
    ("metadata", .obj [
      ("taxYear", .str "2023"),
      ("filingDate", .str "15/04/2024"),
      ("referenceNumber", .str "100-2023-78954621")])]

/-- The per-form-type override table `modeloSpecificData`. -/
def modeloSpecificData (key : String) : Option JValue :=
  if key = "modelo100" then some (.obj [
    ("metadata", .obj [
      ("taxYear", .str "2023"),
      ("filingDate", .str "15/04/2024"),
      ("referenceNumber", .str "100-2023-78954621")])])
  else if key = "modelo303" then some (.obj [
    ("income", .obj [
      ("totalSalary", .str "0.00"),
      ("financialIncome", .str "0.00"),
      ("capitalGains", .str "0.00"),
      ("businessIncome", .str "35689.45")]),
    ("result", .obj [
      ("taxDue", .str "7494.78"),
      ("refund", .str "0.00")]),
    ("metadata", .obj [
      ("taxYear", .str "2023 - 4T"),
      ("filingDate", .str "20/01/2024"),
      ("referenceNumber", .str "303-4T-2023-65412398")])])
  else if key = "modelo130" then some (.obj [
    ("income", .obj [
      ("totalSalary", .str "0.00"),
      ("financialIncome", .str "0.00"),
      ("capitalGains", .str "0.00"),
      ("businessIncome", .str "12500.00")]),
    ("result", .obj [
      ("taxDue", .str "2500.00"),
      ("refund", .str "0.00")]),
    ("metadata", .obj [
      ("taxYear", .str "2023 - 1T"),
      ("filingDate", .str "12/04/2024"),
      ("referenceNumber", .str "130-1T-2023-32145698")])])
  else if key = "modelo714" then some (.obj [
    ("personalInfo", .obj [
      ("name", .str "Juan García López"),
      ("nif", .str "12345678A"),
      ("address", .str "Calle Mayor 1, 28001 Madrid")]),
    ("result", .obj [
      ("taxDue", .str "18452.36"),
      ("refund", .str "0.00")]),
    ("metadata", .obj [
      ("taxYear", .str "2023"),
      ("filingDate", .str "28/05/2024"),
      ("referenceNumber", .str "714-2023-45612378")])])
  else none

/-- `const successRate = retryCount === 0 ? 0.9 : 0.7`. -/
def successRate (retryCount : Nat) : ℚ :=
  if retryCount = 0 then 9 / 10 else 7 / 10

/-- The extracted record on success: the base mock merged with the
form-specific data when the lowercased form type has an entry. -/
def uploadExtractedFor (formType : String) : JValue :=
  match modeloSpecificData (jsToLower formType) with
  | some specificData => mergeDeepUpload baseMockData specificData
  | none => baseMockData

/-- `handleUpload` collapsed with both of its timers: a no-op without a
file; otherwise the uploading/processing ramp ends at progress 100 and the
draw `r ∈ [0,1)` of `Math.random()` resolves success
(`r < successRate`, extracting the merged mock record) or error. -/
def handleUpload (formType : String) (s : UploadState) (r : ℚ) :
    UploadState :=
  match s.file with
  | none => s
  | some _ =>
    if r < successRate s.retryCount then
      { s with
        uploadProgress := 100
        uploadStatus := .success
        extractedData := some (uploadExtractedFor formType)
        processingError := none }
    else
      { s with
        uploadProgress := 100
        uploadStatus := .error
        processingError :=
          some "No se ha podido extraer la información del documento. Puede que el formato no sea compatible o que la calidad de la imagen no sea suficiente." }

/-- `handleRetry`: `setRetryCount(prev => prev + 1)` only schedules a React
state update, and the synchronously re-invoked `handleUpload` is the current
render's closure — its timer reads the stale, pre-increment `retryCount`.
The resolution therefore measures against `successRate s.retryCount` while
the scheduled increment lands in the resulting state for later attempts. -/
def handleRetry (formType : String) (s : UploadState) (r : ℚ) :
    UploadState :=
  { handleUpload formType s r with retryCount := s.retryCount + 1 }

/-- `handleRemoveFile`: revoke the preview URL when one exists, reset every
state-machine field to idle, and call the parent `onCancel`. -/
def handleRemoveFile (s : UploadState) : UploadState × List UpEffect :=
  (({ s with
      file := none
      uploadStatus := .idle
      uploadProgress := 0
      extractedData := none
      processingError := none }),
   (match s.file with
    | some f =>
      match f.preview with
      | some u => [UpEffect.revokeURL u]
      | none => []
    | none => []) ++ [UpEffect.onCancel])

/-- `onDrop` with a nonempty accepted list: revoke the previous preview URL
(if any) before creating the new one, then store the file and reset the
state machine fields that are reset there. -/
def onDrop (s : UploadState) (accepted : List String) (newUrl : String) :
    UploadState × List UpEffect :=
  match accepted with
  | [] => (s, [])
  | selectedName :: _ =>
    (({ s with
        file := some { name := selectedName, preview := some newUrl }
        uploadStatus := .idle
        uploadProgress := 0
        extractedData := none
        processingError := none }),
     (match s.file with
      | some f =>
        match f.preview with
        | some u => [UpEffect.revokeURL u]
        | none => []
      | none => []) ++ [UpEffect.createURL newUrl])

/-! ## Manual form strategy

Two implementations exist in the repository: the one mounted by
`FormFilling` (`manual-form-filling/Manual-Form-Filling.tsx`), whose zod
schemas are independent of the form type, and the alternate
`ManualFormFilling` bundled after `forgot-password-form.tsx`, which builds
its income/deductions schema per form type (`createIncomeSchema`) and
renders per-type field sets (`fieldDefinitions`). -/

/-- A zod object schema over string fields: each key paired with its
`refine` predicate; `z.string()` makes every key required. -/
abbrev ZodStringSchema : Type := List (String × (String → Bool))

/-- Validation of submitted data against such a schema: every schema key
must be present and satisfy its refinement (zod strips unknown keys). -/
def zodValidate (schema : ZodStringSchema) (data : List (String × String)) :
    Bool :=
  schema.all (fun field =>
    match data.find? (fun p => p.1 = field.1) with
    | some p => field.2 p.2
    | none => false)

/-- `(val) => !isNaN(parseFloat(val))` — the refinement of every field of
`incomeInfoSchema` / `deductionsInfoSchema` in the mounted component. -/
def mustBeValidNumber (val : String) : Bool :=
  !jsParseFloatIsNaN val

/-- `(val) => !isNaN(parseFloat(val || "0"))` — the refinement used by the
alternate variant (the empty string is falsy and falls back to `"0"`). -/
def mustBeValidNumberOrEmpty (val : String) : Bool :=
  !jsParseFloatIsNaN (if val = "" then "0" else val)

/-- `incomeInfoSchema` of the mounted `Manual-Form-Filling.tsx`
(lines 60–76): one fixed field set, used for every form type. -/
def incomeInfoSchema : ZodStringSchema :=
  [("salaryIncome", mustBeValidNumber),
   ("selfEmploymentIncome", mustBeValidNumber),
   ("capitalGainsIncome", mustBeValidNumber),
   ("rentalIncome", mustBeValidNumber),
   ("otherIncome", mustBeValidNumber)]

/-- The field names rendered by the income `TabsContent` of the mounted
component (lines 406–487) — the same five for every form type. -/
def incomeTabRenderedFields : List String :=
  ["salaryIncome", "selfEmploymentIncome", "capitalGainsIncome",
   "rentalIncome", "otherIncome"]

/-- `createIncomeSchema(formType)` of the alternate `ManualFormFilling`
variant: the base fields plus per-type extras for `modelo303` (VAT fields)
and `modelo714` (wealth fields). -/
def createIncomeSchema (formType : String) : ZodStringSchema :=
  let baseSchema : ZodStringSchema :=
    [("salaryIncome", mustBeValidNumberOrEmpty),
     ("selfEmploymentIncome", mustBeValidNumberOrEmpty),
     ("capitalGainsIncome", mustBeValidNumberOrEmpty),
     ("rentalIncome", mustBeValidNumberOrEmpty),
     ("otherIncome", mustBeValidNumberOrEmpty)]
  if jsToLower formType = "modelo303" then
    baseSchema ++
      [("ivaRepercutido", mustBeValidNumberOrEmpty),
       ("ivaSoportado", mustBeValidNumberOrEmpty)]
  else if jsToLower formType = "modelo714" then
    baseSchema ++
      [("realEstate", mustBeValidNumberOrEmpty),
       ("financialAssets", mustBeValidNumberOrEmpty),
       ("liabilities", mustBeValidNumberOrEmpty)]
  else baseSchema

/-- The income fields the alternate variant renders
(`fieldDefinitions[type].income`, falling back to `modelo100`). -/
def variantIncomeRenderedFields (normalizedFormType : String) : List String :=
  if normalizedFormType = "modelo100" then
    ["salaryIncome", "selfEmploymentIncome", "capitalGainsIncome",
     "rentalIncome", "otherIncome"]
  else if normalizedFormType = "modelo303" then
    ["selfEmploymentIncome", "ivaRepercutido", "ivaSoportado"]
  else if normalizedFormType = "modelo130" then
    ["selfEmploymentIncome", "otherIncome"]
  else if normalizedFormType = "modelo714" then
    ["realEstate", "financialAssets", "capitalGainsIncome", "otherIncome"]
  else
    ["salaryIncome", "selfEmploymentIncome", "capitalGainsIncome",
     "rentalIncome", "otherIncome"]

/-- The VAT-due field the variant auto-computes for `modelo303`:
`Math.max(0, ivaRepercutido - ivaSoportado)`. -/
def vatResultado (ivaRepercutido ivaSoportado : ℚ) : ℚ :=
  max 0 (ivaRepercutido - ivaSoportado)

/-! ## ID-lookup strategy (`IdLookup.tsx`) -/

/-- Keys of `taxData.personalInfo` in insertion order (the `baseData` built
by `simulateApiCall`, lines 250–260); `Object.entries` renders one input per
key in edit mode. -/
def personalInfoKeys : List String :=
  ["fullName", "documentNumber", "dateOfBirth", "address", "postalCode",
   "city", "province", "phone", "email"]

/-- The `disabled` prop of the edit-mode `Input` (lines 738–742):
`key === "documentNumber" || key === "dateOfBirth" || key === "fullName"`. -/
def editFieldDisabled (key : String) : Bool :=
  key = "documentNumber" || key = "dateOfBirth" || key = "fullName"

/-! ## Claims -/

/-- C1: for every step index `i ∈ [0,6)`, `handleNextStep` from `i` lands on
`i + 1` with `progress = round((i+2)/6*100)` and is a no-op at `i = 5`;
`handlePreviousStep` from `i > 0` lands on `i - 1` with
`progress = round(i/6*100)` and is a no-op at `i = 0`; consequently, when
the progress was consistent before a transition it equals
`round((currentStepIndex+1)/6*100)` of the new index afterwards. -/
theorem wizard_advance_retreat_progress (o : OnbState)
    (h : o.activeStep < 6) :
    (o.activeStep < 5 →
      (handleNextStep o).activeStep = o.activeStep + 1 ∧
      (handleNextStep o).progress = jsRoundDiv ((o.activeStep + 2) * 100) 6) ∧
    (o.activeStep = 5 → handleNextStep o = o) ∧
    (0 < o.activeStep →
      (handlePreviousStep o).activeStep = o.activeStep - 1 ∧
      (handlePreviousStep o).progress = jsRoundDiv (o.activeStep * 100) 6) ∧
    (o.activeStep = 0 → handlePreviousStep o = o) ∧
    (o.progress = progressFor o.activeStep →
      (handleNextStep o).progress = progressFor (handleNextStep o).activeStep ∧
      (handlePreviousStep o).progress =
        progressFor (handlePreviousStep o).activeStep) := by
  have hnx : ∀ o' : OnbState, o'.activeStep < 5 →
      handleNextStep o' =
        { o' with
          activeStep := o'.activeStep + 1
          progress := progressFor (o'.activeStep + 1)
          sessionSaved := true } := by
    intro o' h5
    unfold handleNextStep
    rw [if_pos]
    show o'.activeStep < formStepsLength - 1
    unfold formStepsLength
    omega
  have hpv : ∀ o' : OnbState, 0 < o'.activeStep →
      handlePreviousStep o' =
        { o' with
          activeStep := o'.activeStep - 1
          progress := progressFor (o'.activeStep - 1) } := by
    intro o' h0
    unfold handlePreviousStep
    rw [if_pos h0]
  refine ⟨?_, ?_, ?_, ?_, ?_⟩
  · intro h5
    rw [hnx o h5]
    refine ⟨rfl, ?_⟩
    show progressFor (o.activeStep + 1) = _
    unfold progressFor formStepsLength
    rfl
  · intro h5
    unfold handleNextStep
    rw [if_neg]
    unfold formStepsLength
    omega
  · intro h0
    rw [hpv o h0]
    refine ⟨rfl, ?_⟩
    show progressFor (o.activeStep - 1) = _
    unfold progressFor formStepsLength
    congr 1
    omega
  · intro h0
    unfold handlePreviousStep
    rw [if_neg]
    omega
  · intro _
    constructor
    · by_cases h5 : o.activeStep < 5
      · rw [hnx o h5]
      · have : handleNextStep o = o := by
          unfold handleNextStep
          rw [if_neg]
          unfold formStepsLength
          omega
        rw [this]
        assumption
    · by_cases h0 : 0 < o.activeStep
      · rw [hpv o h0]
      · have : handlePreviousStep o = o := by
          unfold handlePreviousStep
          rw [if_neg h0]
        rw [this]
        assumption

/-- Concrete instance of the step state used by the C1 witness. -/
def onbAtStep1 : OnbState :=
  { activeStep := 1, selectedForm := none, selectedMethod := none,
    progress := 33, sessionSaved := false }

/-- Witness for C1 at step index 1: advancing lands on step 2 with
progress `round(3/6*100) = 50`, retreating lands on step 0 with
progress `round(1/6*100) = 17`. -/
theorem wizard_advance_retreat_progress_witness :
    onbAtStep1.activeStep < 6 ∧
    (handleNextStep onbAtStep1).activeStep = 2 ∧
    (handleNextStep onbAtStep1).progress = 50 ∧
    (handlePreviousStep onbAtStep1).activeStep = 0 ∧
    (handlePreviousStep onbAtStep1).progress = 17 := by
  have h := wizard_advance_retreat_progress onbAtStep1 (by decide)
  refine ⟨by decide, (h.1 (by decide)).1, ?_, (h.2.2.1 (by decide)).1, ?_⟩
  · have := (h.1 (by decide)).2
    simpa [jsRoundDiv, onbAtStep1] using this
  · have := (h.2.2.1 (by decide)).2
    simpa [jsRoundDiv, onbAtStep1] using this

/-- C2: in phase 2 with a method selected, `handleContinue` with any method
other than "ai" emits exactly one `onNext` call and leaves the selector
state unchanged (so it is equivalent to calling `onNext()` directly), while
with "ai" it only shows a toast — no `onNext`, no wizard advance; with no
form type selected in phase 1 or no method selected in phase 2 it is a
guarded no-op. -/
theorem continue_phase2_dispatch (f : FFState) (m : String)
    (hm : f.selectedMethod = some m) :
    (m ≠ "ai" →
      handleContinue .formMethod f = (f, [FFEvent.onNext]) ∧
      ∀ o : OnbState,
        applyFFEvents o (handleContinue .formMethod f).2 = handleNextStep o) ∧
    (m = "ai" →
      handleContinue .formMethod f =
        (f, [FFEvent.toastSuccess "AI assistant activated"]) ∧
      ∀ o : OnbState,
        applyFFEvents o (handleContinue .formMethod f).2 = o) ∧
    (∀ g : FFState, g.selectedForm = none →
      handleContinue .formType g = (g, [])) ∧
    (∀ g : FFState, g.selectedMethod = none →
      handleContinue .formMethod g = (g, [])) := by
  refine ⟨?_, ?_, ?_, ?_⟩
  · intro hne
    have he : handleContinue .formMethod f = (f, [FFEvent.onNext]) := by
      unfold handleContinue
      rw [hm]
      simp [hne]
    refine ⟨he, ?_⟩
    intro o
    rw [he]
    rfl
  · intro hai
    subst hai
    have he : handleContinue .formMethod f =
        (f, [FFEvent.toastSuccess "AI assistant activated"]) := by
      unfold handleContinue
      cases hsf : f.selectedForm <;> rw [hm] <;> rfl
    refine ⟨he, ?_⟩
    intro o
    rw [he]
    rfl
  · intro g hg
    unfold handleContinue
    rw [hg]
  · intro g hg
    unfold handleContinue
    cases hgf : g.selectedForm <;> rw [hg]

/-- Concrete selector state used by the C2 witness. -/
def ffManualSelected : FFState :=
  { selectedForm := some "modelo100", selectedMethod := some "manual",
    showAiChat := false, showManualForm := true, showUploadForm := false,
    showIdLookup := false }

/-- Witness for C2: with method "manual" selected in phase 2, continue
emits exactly `[onNext]` and keeps the selector state. -/
theorem continue_phase2_dispatch_witness :
    ffManualSelected.selectedMethod = some "manual" ∧
    handleContinue .formMethod ffManualSelected =
      (ffManualSelected, [FFEvent.onNext]) :=
  ⟨rfl, ((continue_phase2_dispatch ffManualSelected "manual" rfl).1
    (by decide)).1⟩

/-- C7: in the ID-lookup edit mode, exactly the personal-info inputs for
`documentNumber`, `dateOfBirth` and `fullName` are disabled; the other six
fields (address, postalCode, city, province, phone, email) are editable. -/
theorem idlookup_edit_mode_disabled_fields :
    personalInfoKeys.filter (fun k => editFieldDisabled k) =
      ["fullName", "documentNumber", "dateOfBirth"] ∧
    personalInfoKeys.filter (fun k => !editFieldDisabled k) =
      ["address", "postalCode", "city", "province", "phone", "email"] := by
  decide

/-- Interpretation of the chat's parent-callback events by a wizard whose
advance behaviour is `advance`: only an actually invoked `onComplete`
callback could ever move the wizard. -/
def runChatCallbacks (advance : OnbState → OnbState) (o : OnbState)
    (evs : List ChatEvent) : OnbState :=
  evs.foldl
    (fun acc e =>
      match e with
      | ChatEvent.onCompleteInvoked => advance acc
      | ChatEvent.toastSuccess _ => acc) o

/-- C9: `FormFilling` mounts `AiChatAssistant` without an `onComplete` prop,
so for every chat state the completion button sets the chat-local progress
to 100 but invokes no parent callback — whatever advancing would do, the
wizard state is unchanged. -/
theorem ai_chat_completion_never_advances_wizard :
    ∀ s : ChatState,
      (chatHandleComplete formFillingProvidesChatOnComplete s).1.progress
          = 100 ∧
      (chatHandleComplete formFillingProvidesChatOnComplete s).2 =
        [ChatEvent.toastSuccess "Asistente completado"] ∧
      ∀ (advance : OnbState → OnbState) (o : OnbState),
        runChatCallbacks advance o
          (chatHandleComplete formFillingProvidesChatOnComplete s).2 = o := by
  intro s
  refine ⟨rfl, rfl, ?_⟩
  intro advance o
  rfl

/-- C5: `handleRemoveFile` revokes the current preview URL when there is
one, resets the upload machine to idle (file `none`, progress 0, extracted
data and processing error cleared) and additionally calls the parent
`onCancel` exactly once; `onDrop` with an accepted file revokes the previous
file's preview URL before creating the new one. -/
theorem remove_file_resets_and_cancels (s : UploadState) (fl : FileRec)
    (u : String) (hf : s.file = some fl) (hu : fl.preview = some u) :
    handleRemoveFile s =
      ({ s with
          file := none
          uploadStatus := .idle
          uploadProgress := 0
          extractedData := none
          processingError := none },
       [UpEffect.revokeURL u, UpEffect.onCancel]) ∧
    (∀ t : UploadState,
      (handleRemoveFile t).1.file = none ∧
      (handleRemoveFile t).1.uploadStatus = .idle ∧
      (handleRemoveFile t).1.uploadProgress = 0 ∧
      (handleRemoveFile t).1.extractedData = none ∧
      (handleRemoveFile t).1.processingError = none ∧
      (handleRemoveFile t).2.count UpEffect.onCancel = 1) ∧
    (∀ nm newUrl : String,
      onDrop s [nm] newUrl =
        ({ s with
            file := some { name := nm, preview := some newUrl }
            uploadStatus := .idle
            uploadProgress := 0
            extractedData := none
            processingError := none },
         [UpEffect.revokeURL u, UpEffect.createURL newUrl])) := by
  refine ⟨?_, ?_, ?_⟩
  · unfold handleRemoveFile
    rw [hf]
    show (_, (match fl.preview with
      | some u' => [UpEffect.revokeURL u']
      | none => []) ++ [UpEffect.onCancel]) = _
    rw [hu]
    rfl
  · intro t
    refine ⟨rfl, rfl, rfl, rfl, rfl, ?_⟩
    show ((match t.file with
      | some f =>
        match f.preview with
        | some u' => [UpEffect.revokeURL u']
        | none => []
      | none => []) ++ [UpEffect.onCancel]).count UpEffect.onCancel = 1
    rcases ht : t.file with _ | fl'
    · rfl
    · show ((match fl'.preview with
        | some u' => [UpEffect.revokeURL u']
        | none => []) ++ [UpEffect.onCancel]).count UpEffect.onCancel = 1
      rcases hp : fl'.preview with _ | u'
      · rfl
      · simp [List.count_append, List.count_cons]
  · intro nm newUrl
    unfold onDrop
    rw [hf]
    show (_, (match fl.preview with
      | some u' => [UpEffect.revokeURL u']
      | none => []) ++ [UpEffect.createURL newUrl]) = _
    rw [hu]
    rfl

/-- Concrete upload state used by the C5 witness. -/
def uploadWithFile : UploadState :=
  { file := some { name := "renta.pdf", preview := some "blob:prev" }
    uploadProgress := 0
    uploadStatus := .idle
    extractedData := none
    retryCount := 0
    processingError := none }

/-- Witness for C5 at a concrete state with a previewed file: removing the
file revokes `blob:prev` and calls `onCancel`; the state is reset. -/
theorem remove_file_resets_and_cancels_witness :
    uploadWithFile.file = some { name := "renta.pdf", preview := some "blob:prev" } ∧
    (handleRemoveFile uploadWithFile).2 =
      [UpEffect.revokeURL "blob:prev", UpEffect.onCancel] :=
  ⟨rfl, by
    rw [(remove_file_resets_and_cancels uploadWithFile
      { name := "renta.pdf", preview := some "blob:prev" } "blob:prev"
      rfl rfl).1]⟩

/-- State after a failed first attempt (`retryCount` is still 0: it is
only bumped by a retry click), used by the C4 counterexample. -/
def uploadAfterFirstFailure : UploadState :=
  { file := some { name := "renta.pdf", preview := some "blob:prev" }
    uploadProgress := 100
    uploadStatus := .error
    extractedData := none
    retryCount := 0
    processingError :=
      some "No se ha podido extraer la información del documento. Puede que el formato no sea compatible o que la calidad de la imagen no sea suficiente." }

/-- C4 counterexample: after the first failed attempt, a retry with draw
`0.8` succeeds even though `0.8 ≥ 0.7` — the synchronously re-invoked
upload still reads the pre-increment `retryCount = 0` and measures against
`0.9`, so it is false that every attempt after the first failure uses the
degraded `0.7` probability (the increment only lands for later attempts). -/
theorem upload_retry_stale_closure_counterexample :
    uploadAfterFirstFailure.uploadStatus = UploadStatus.error ∧
    uploadAfterFirstFailure.retryCount = 0 ∧
    ¬((4 : ℚ) / 5 < 7 / 10) ∧
    (handleRetry "modelo100" uploadAfterFirstFailure (4 / 5)).uploadStatus =
      UploadStatus.success ∧
    (handleRetry "modelo100" uploadAfterFirstFailure (4 / 5)).retryCount =
      1 := by
  refine ⟨rfl, rfl, by norm_num, ?_, rfl⟩
  have h : (4 : ℚ) / 5 < successRate uploadAfterFirstFailure.retryCount := by
    norm_num [successRate, uploadAfterFirstFailure]
  show (handleUpload "modelo100" uploadAfterFirstFailure (4 / 5)).uploadStatus
    = UploadStatus.success
  unfold handleUpload
  show (if (4 : ℚ) / 5 < successRate uploadAfterFirstFailure.retryCount then
      { uploadAfterFirstFailure with
        uploadProgress := 100
        uploadStatus := .success
        extractedData := some (uploadExtractedFor "modelo100")
        processingError := none }
    else
      { uploadAfterFirstFailure with
        uploadProgress := 100
        uploadStatus := .error
        processingError :=
          some "No se ha podido extraer la información del documento. Puede que el formato no sea compatible o que la calidad de la imagen no sea suficiente." }).uploadStatus
    = UploadStatus.success
  rw [if_pos h]

/-- C4 amended: with a file selected, the collapsed `handleUpload` resolves
to success exactly when the random draw is below the success probability —
`0.9` when the `retryCount` its closure reads is 0, `0.7` otherwise; on
success the extracted data is the base mock record deep-merged with the
per-form-type override; on failure the machine enters the error state.
`handleRetry` schedules `retryCount + 1` but synchronously re-invokes the
current render's upload, whose timer reads the stale pre-increment count:
the first retry therefore still resolves at probability `0.9`, and only
retries issued with `retryCount ≥ 1` (the second and later) run at `0.7`,
while the increment lands in the resulting state. -/
theorem upload_success_probability (formType : String) (s : UploadState)
    (fl : FileRec) (r : ℚ) (hf : s.file = some fl) :
    ((handleUpload formType s r).uploadStatus = .success ↔
      r < successRate s.retryCount) ∧
    (s.retryCount = 0 → successRate s.retryCount = 9 / 10) ∧
    (s.retryCount ≠ 0 → successRate s.retryCount = 7 / 10) ∧
    (r < successRate s.retryCount →
      (handleUpload formType s r).extractedData =
        some (uploadExtractedFor formType)) ∧
    (¬ r < successRate s.retryCount →
      (handleUpload formType s r).uploadStatus = .error) ∧
    ((handleRetry formType s r).retryCount = s.retryCount + 1) ∧
    ((handleRetry formType s r).uploadStatus = .success ↔
      r < successRate s.retryCount) ∧
    (s.retryCount = 0 →
      ((handleRetry formType s r).uploadStatus = .success ↔ r < 9 / 10)) ∧
    (0 < s.retryCount →
      ((handleRetry formType s r).uploadStatus = .success ↔ r < 7 / 10)) ∧
    (∀ d, modeloSpecificData (jsToLower formType) = some d →
      uploadExtractedFor formType = mergeDeepUpload baseMockData d) := by
  have hup : handleUpload formType s r =
      (if r < successRate s.retryCount then
        { s with
          uploadProgress := 100
          uploadStatus := .success
          extractedData := some (uploadExtractedFor formType)
          processingError := none }
      else
        { s with
          uploadProgress := 100
          uploadStatus := .error
          processingError :=
            some "No se ha podido extraer la información del documento. Puede que el formato no sea compatible o que la calidad de la imagen no sea suficiente." }) := by
    unfold handleUpload
    rw [hf]
  have h1 : (handleUpload formType s r).uploadStatus = .success ↔
      r < successRate s.retryCount := by
    rw [hup]
    by_cases hr : r < successRate s.retryCount
    · rw [if_pos hr]
      exact ⟨fun _ => hr, fun _ => rfl⟩
    · rw [if_neg hr]
      constructor
      · intro hEq
        cases hEq
      · intro hr'
        exact absurd hr' hr
  have h7 : (handleRetry formType s r).uploadStatus = .success ↔
      r < successRate s.retryCount := h1
  refine ⟨h1, ?_, ?_, ?_, ?_, rfl, h7, ?_, ?_, ?_⟩
  · intro h0
    unfold successRate
    rw [if_pos h0]
  · intro h0
    unfold successRate
    rw [if_neg h0]
  · intro hr
    rw [hup, if_pos hr]
  · intro hr
    rw [hup, if_neg hr]
  · intro h0
    have hr9 : successRate s.retryCount = 9 / 10 := by
      unfold successRate
      rw [if_pos h0]
    rw [← hr9]
    exact h7
  · intro h0
    have hr7 : successRate s.retryCount = 7 / 10 := by
      unfold successRate
      rw [if_neg (by omega)]
    rw [← hr7]
    exact h7
  · intro d hd
    unfold uploadExtractedFor
    rw [hd]

/-- Witness for the amended C4 at a concrete first-attempt state: with draw
`1/2` the upload succeeds (`1/2 < 9/10`), and a first retry with draw
`4/5` also succeeds because the stale closure still measures against
`9/10`. -/
theorem upload_success_probability_witness :
    uploadWithFile.file =
      some { name := "renta.pdf", preview := some "blob:prev" } ∧
    (handleUpload "modelo303" uploadWithFile (1 / 2)).uploadStatus =
      UploadStatus.success ∧
    (handleRetry "modelo303" uploadWithFile (4 / 5)).uploadStatus =
      UploadStatus.success :=
  ⟨rfl,
    ((upload_success_probability "modelo303" uploadWithFile
        { name := "renta.pdf", preview := some "blob:prev" } (1 / 2)
        rfl).1).mpr
      (by
        show (1 : ℚ) / 2 < successRate uploadWithFile.retryCount
        norm_num [successRate, uploadWithFile]),
    (((upload_success_probability "modelo303" uploadWithFile
        { name := "renta.pdf", preview := some "blob:prev" } (4 / 5)
        rfl).2.2.2.2.2.2.2.1) rfl).mpr (by norm_num)⟩

/-- C8: a sent user message surfaces the completion affordance after the
simulated reply exactly when its lowercased text contains one of the fixed
completion phrases — `isCompleted` becomes `true` then, and is left
unchanged by any other input; invoking the affordance (`handleComplete`
with the `onComplete` prop provided) sets the chat progress to 100 and
invokes `onComplete`. -/
theorem chat_completion_phrase_detection (s : ChatState)
    (hsend : ¬(jsTrim s.input = "" ∧ s.attachments = [])) :
    (containsDonePhrase s.input = true →
      (handleSendMessage s).isCompleted = true) ∧
    (containsDonePhrase s.input = false →
      (handleSendMessage s).isCompleted = s.isCompleted) ∧
    (∀ t : ChatState,
      (chatHandleComplete true t).1.progress = 100 ∧
      ChatEvent.onCompleteInvoked ∈ (chatHandleComplete true t).2) := by
  have hsm : (handleSendMessage s).isCompleted =
      (s.isCompleted || containsDonePhrase s.input) := by
    unfold handleSendMessage
    rw [if_neg hsend]
  refine ⟨?_, ?_, ?_⟩
  · intro hc
    rw [hsm, hc, Bool.or_true]
  · intro hc
    rw [hsm, hc, Bool.or_false]
  · intro t
    exact ⟨rfl, by
      show ChatEvent.onCompleteInvoked ∈
        [ChatEvent.toastSuccess "Asistente completado",
         ChatEvent.onCompleteInvoked]
      simp⟩

/-- Concrete chat state used by the C8 witness: pending input
"creo que ya estoy listo" (contains the phrase "listo"). -/
def chatReadyToFinish : ChatState :=
  { chatInit with input := "creo que ya estoy listo" }

/-- Witness for C8: sending "creo que ya estoy listo" surfaces the
completion affordance. -/
theorem chat_completion_phrase_detection_witness :
    ¬(jsTrim chatReadyToFinish.input = "" ∧
        chatReadyToFinish.attachments = []) ∧
    containsDonePhrase chatReadyToFinish.input = true ∧
    (handleSendMessage chatReadyToFinish).isCompleted = true :=
  ⟨by decide, by decide,
    (chat_completion_phrase_detection chatReadyToFinish (by decide)).1
      (by decide)⟩

/-- C3 counterexample: in the mounted `Manual-Form-Filling.tsx` the income
schema is the same fixed five-field set for every form type — for
`modelo303` no `ivaRepercutido`/`ivaSoportado` field exists, a submission
without them (and with a generic `salaryIncome`) validates, and a
submission with an empty `salaryIncome` is rejected (so `salaryIncome` IS
required), contradicting the claim. -/
theorem manual_income_schema_fixed_counterexample :
    incomeInfoSchema.map (fun p => p.1) =
      ["salaryIncome", "selfEmploymentIncome", "capitalGainsIncome",
       "rentalIncome", "otherIncome"] ∧
    (incomeInfoSchema.map (fun p => p.1)).contains "ivaRepercutido" =
      false ∧
    (incomeInfoSchema.map (fun p => p.1)).contains "ivaSoportado" = false ∧
    incomeTabRenderedFields.contains "salaryIncome" = true ∧
    zodValidate incomeInfoSchema
      [("salaryIncome", "30000"), ("selfEmploymentIncome", "0"),
       ("capitalGainsIncome", "0"), ("rentalIncome", "0"),
       ("otherIncome", "0")] = true ∧
    zodValidate incomeInfoSchema
      [("salaryIncome", ""), ("selfEmploymentIncome", "0"),
       ("capitalGainsIncome", "0"), ("rentalIncome", "0"),
       ("otherIncome", "0")] = false := by
  decide

/-- C3 amended: the per-form-type income field sets live in the alternate
`ManualFormFilling` variant (bundled after `forgot-password-form.tsx`):
there, `createIncomeSchema "modelo303"` adds required `ivaRepercutido` /
`ivaSoportado` fields (they reject non-numeric input), the rendered income
field set for `modelo303` does not include the generic `salaryIncome`
(whose validator moreover accepts the empty string, falling back to "0"),
and other form types get different field sets. -/
theorem variant_income_schema_per_form_type :
    (createIncomeSchema "modelo303").map (fun p => p.1) =
      ["salaryIncome", "selfEmploymentIncome", "capitalGainsIncome",
       "rentalIncome", "otherIncome", "ivaRepercutido", "ivaSoportado"] ∧
    variantIncomeRenderedFields "modelo303" =
      ["selfEmploymentIncome", "ivaRepercutido", "ivaSoportado"] ∧
    (variantIncomeRenderedFields "modelo303").contains "salaryIncome" =
      false ∧
    mustBeValidNumberOrEmpty "" = true ∧
    zodValidate (createIncomeSchema "modelo303")
      [("salaryIncome", ""), ("selfEmploymentIncome", "21000"),
       ("capitalGainsIncome", ""), ("rentalIncome", ""),
       ("otherIncome", ""), ("ivaRepercutido", "4410"),
       ("ivaSoportado", "1200")] = true ∧
    zodValidate (createIncomeSchema "modelo303")
      [("salaryIncome", ""), ("selfEmploymentIncome", "21000"),
       ("capitalGainsIncome", ""), ("rentalIncome", ""),
       ("otherIncome", ""), ("ivaRepercutido", "abc"),
       ("ivaSoportado", "1200")] = false ∧
    zodValidate (createIncomeSchema "modelo303")
      [("salaryIncome", ""), ("selfEmploymentIncome", "21000"),
       ("capitalGainsIncome", ""), ("rentalIncome", ""),
       ("otherIncome", "")] = false ∧
    (createIncomeSchema "modelo100").map (fun p => p.1) =
      ["salaryIncome", "selfEmploymentIncome", "capitalGainsIncome",
       "rentalIncome", "otherIncome"] ∧
    (createIncomeSchema "modelo714").map (fun p => p.1) =
      ["salaryIncome", "selfEmploymentIncome", "capitalGainsIncome",
       "rentalIncome", "otherIncome", "realEstate", "financialAssets",
       "liabilities"] ∧
    vatResultado 4410 1200 = 3210 := by
  refine ⟨?_, by decide, by decide, by decide, ?_, ?_, ?_, ?_, ?_, by
    norm_num [vatResultado]⟩ <;> decide

/-- `handleNextStep` never touches the page-level selections. -/
theorem handleNextStep_preserves_selections (o : OnbState) :
    (handleNextStep o).selectedForm = o.selectedForm ∧
    (handleNextStep o).selectedMethod = o.selectedMethod := by
  unfold handleNextStep
  by_cases h : o.activeStep < formStepsLength - 1
  · rw [if_pos h]
    exact ⟨rfl, rfl⟩
  · rw [if_neg h]
    exact ⟨rfl, rfl⟩

/-- `handlePreviousStep` never touches the page-level selections. -/
theorem handlePreviousStep_preserves_selections (o : OnbState) :
    (handlePreviousStep o).selectedForm = o.selectedForm ∧
    (handlePreviousStep o).selectedMethod = o.selectedMethod := by
  unfold handlePreviousStep
  by_cases h : 0 < o.activeStep
  · rw [if_pos h]
    exact ⟨rfl, rfl⟩
  · rw [if_neg h]
    exact ⟨rfl, rfl⟩

/-- No parent call `FormFilling` can make writes the page selections. -/
theorem applyFFEvent_preserves_selections (o : OnbState) (e : FFEvent) :
    (applyFFEvent o e).selectedForm = o.selectedForm ∧
    (applyFFEvent o e).selectedMethod = o.selectedMethod := by
  cases e with
  | onNext => exact handleNextStep_preserves_selections o
  | onPrevious => exact handlePreviousStep_preserves_selections o
  | setStep st => exact ⟨rfl, rfl⟩
  | toastSuccess m => exact ⟨rfl, rfl⟩

/-- Lifting of the previous lemma to call sequences. -/
theorem applyFFEvents_preserves_selections (evs : List FFEvent) :
    ∀ o : OnbState,
      (applyFFEvents o evs).selectedForm = o.selectedForm ∧
      (applyFFEvents o evs).selectedMethod = o.selectedMethod := by
  induction evs with
  | nil => exact fun o => ⟨rfl, rfl⟩
  | cons e rest ih =>
    intro o
    have h1 := applyFFEvent_preserves_selections o e
    have h2 := ih (applyFFEvent o e)
    exact ⟨h2.1.trans h1.1, h2.2.trans h1.2⟩

/-- C10: in every reachable state of the composed wizard, the page-level
`selectedForm` and `selectedMethod` stay `null` (the `onFormSelect` /
`onMethodSelect` callbacks are not part of `FormFilling`'s props and are
never invoked), so the wizard-header Next button is disabled whenever the
active step is select-type (0) or select-method (1); the wizard leaves
those steps only through `FormFilling`'s own `setStep`/`onNext` calls. -/
theorem onboarding_selections_stay_null (s : Sys) (h : SysReachable s) :
    s.o.selectedForm = none ∧ s.o.selectedMethod = none ∧
    ((s.o.activeStep = 0 ∨ s.o.activeStep = 1) →
      nextButtonDisabled s.o = true) := by
  have key : s.o.selectedForm = none ∧ s.o.selectedMethod = none := by
    induction h with
    | refl => exact ⟨rfl, rfl⟩
    | @tail b c hr hstep ih =>
      cases hstep with
      | selectFormCard id hid hcard hstep2 => exact ih
      | selectMethodCard id hid hcard hstep2 => exact ih
      | clickContinue hcard hen =>
        have hp := applyFFEvents_preserves_selections
          (handleContinue (fStepOf b.o) b.f).2 b.o
        exact ⟨hp.1.trans ih.1, hp.2.trans ih.2⟩
      | clickBackToFormTypes hcard hstep2 =>
        have hp := applyFFEvent_preserves_selections b.o
          (.setStep .formType)
        exact ⟨hp.1.trans ih.1, hp.2.trans ih.2⟩
      | clickPhase1Previous hcard hstep2 =>
        have hp := handlePreviousStep_preserves_selections b.o
        exact ⟨hp.1.trans ih.1, hp.2.trans ih.2⟩
      | strategyComplete hm =>
        have hp := handleNextStep_preserves_selections b.o
        exact ⟨hp.1.trans ih.1, hp.2.trans ih.2⟩
      | strategyCancel hm => exact ih
      | wizardNextButton hlast hen =>
        have hp := handleNextStep_preserves_selections b.o
        exact ⟨hp.1.trans ih.1, hp.2.trans ih.2⟩
      | wizardPreviousButton hfirst =>
        have hp := handlePreviousStep_preserves_selections b.o
        exact ⟨hp.1.trans ih.1, hp.2.trans ih.2⟩
      | remountFormFilling => exact ih
  refine ⟨key.1, key.2, ?_⟩
  intro h01
  unfold nextButtonDisabled
  rcases h01 with h0 | h1
  · rw [h0, key.1]
    rfl
  · rw [h1, key.2]
    cases hv : decide (s.o.selectedForm = none) <;> rfl

/-- Witness for C10 at the (trivially reachable) initial state. -/
theorem onboarding_selections_stay_null_witness :
    SysReachable sysInit ∧
    sysInit.o.selectedForm = none ∧ sysInit.o.selectedMethod = none ∧
    nextButtonDisabled sysInit.o = true :=
  ⟨Relation.ReflTransGen.refl,
   (onboarding_selections_stay_null sysInit Relation.ReflTransGen.refl).1,
   (onboarding_selections_stay_null sysInit Relation.ReflTransGen.refl).2.1,
   (onboarding_selections_stay_null sysInit
     Relation.ReflTransGen.refl).2.2 (Or.inl rfl)⟩

/-- Size-bounded simultaneous induction: the FormUpload and IdLookup copies
of `mergeDeep` compute the same function. -/
theorem mergeUpload_eq_mergeLookup_aux (n : Nat) :
    (∀ s : JValue, sizeOf s ≤ n → ∀ t : JValue,
      mergeDeepUpload t s = mergeDeepLookup t s) ∧
    (∀ l : List (String × JValue), sizeOf l ≤ n →
      ∀ tfs acc, mergeFieldsUpload tfs acc l = mergeFieldsLookup tfs acc l) := by
  induction n with
  | zero =>
    constructor
    · intro s hs
      exfalso
      cases s <;> simp at hs
    · intro l hl
      exfalso
      cases l <;> simp at hl
  | succ n ih =>
    constructor
    · intro s hs t
      cases s with
      | str a => cases t <;> simp [mergeDeepUpload, mergeDeepLookup]
      | arr xs => cases t <;> simp [mergeDeepUpload, mergeDeepLookup]
      | obj sfs =>
        cases t with
        | str a => simp [mergeDeepUpload, mergeDeepLookup]
        | arr xs => simp [mergeDeepUpload, mergeDeepLookup]
        | obj tfs =>
          have hsz : sizeOf sfs ≤ n := by
            simp at hs
            omega
          simp only [mergeDeepUpload, mergeDeepLookup]
          rw [ih.2 sfs hsz tfs tfs]
    · intro l hl tfs acc
      cases l with
      | nil => simp [mergeFieldsUpload, mergeFieldsLookup]
      | cons p rest =>
        obtain ⟨k, sv⟩ := p
        have hsv : sizeOf sv ≤ n := by
          simp at hl
          omega
        have hrest : sizeOf rest ≤ n := by
          simp at hl
          omega
        simp only [mergeFieldsUpload, mergeFieldsLookup]
        rw [ih.1 sv hsv (getKey tfs k), ih.2 rest hrest]

/-- On `mergeCompat`-compatible inputs the implementation agrees with the
reference semantics (size-bounded simultaneous induction). -/
theorem mergeUpload_eq_mergeSpec_aux (n : Nat) :
    (∀ s : JValue, sizeOf s ≤ n → ∀ t : JValue,
      mergeCompat t s = true → mergeDeepUpload t s = mergeSpec t s) ∧
    (∀ l : List (String × JValue), sizeOf l ≤ n →
      ∀ tfs acc, mergeCompatFields tfs l = true →
        mergeFieldsUpload tfs acc l = mergeSpecFields tfs acc l) := by
  induction n with
  | zero =>
    constructor
    · intro s hs
      exfalso
      cases s <;> simp at hs
    · intro l hl
      exfalso
      cases l <;> simp at hl
  | succ n ih =>
    constructor
    · intro s hs t hc
      cases s with
      | str a => cases t <;> simp [mergeCompat] at hc
      | arr xs => cases t <;> simp [mergeCompat] at hc
      | obj sfs =>
        cases t with
        | str a => simp [mergeCompat] at hc
        | arr xs => simp [mergeCompat] at hc
        | obj tfs =>
          have hsz : sizeOf sfs ≤ n := by
            simp at hs
            omega
          have hcf : mergeCompatFields tfs sfs = true := by
            simpa [mergeCompat] using hc
          simp only [mergeDeepUpload, mergeSpec]
          rw [ih.2 sfs hsz tfs tfs hcf]
    · intro l hl tfs acc hc
      cases l with
      | nil => simp [mergeFieldsUpload, mergeSpecFields]
      | cons p rest =>
        obtain ⟨k, sv⟩ := p
        have hsv : sizeOf sv ≤ n := by
          simp at hl
          omega
        have hrest : sizeOf rest ≤ n := by
          simp at hl
          omega
        have hc1 : (if isObject sv then
            !(hasKey tfs k) || mergeCompat (getKey tfs k) sv
          else true) = true ∧ mergeCompatFields tfs rest = true := by
          simpa [mergeCompatFields, Bool.and_eq_true] using hc
        simp only [mergeFieldsUpload, mergeSpecFields]
        have hval : (if isObject sv then
              if hasKey tfs k then mergeDeepUpload (getKey tfs k) sv else sv
            else sv) =
            (if isObject sv ∧ hasKey tfs k ∧ isObject (getKey tfs k) then
              mergeSpec (getKey tfs k) sv
            else sv) := by
          cases hobj : isObject sv with
          | false => simp [hobj]
          | true =>
            cases hhk : hasKey tfs k with
            | false => simp [hobj, hhk]
            | true =>
              have hcm : mergeCompat (getKey tfs k) sv = true := by
                have := hc1.1
                rw [hobj, hhk] at this
                simpa using this
              have hgo : isObject (getKey tfs k) = true := by
                cases hg : getKey tfs k with
                | obj g => rfl
                | str a =>
                  rw [hg] at hcm
                  cases sv <;> simp [mergeCompat] at hcm
                | arr xs =>
                  rw [hg] at hcm
                  cases sv <;> simp [mergeCompat] at hcm
              have hrec := ih.1 sv hsv (getKey tfs k) hcm
              simp [hobj, hhk, hgo, hrec]
        rw [hval, ih.2 rest hrest tfs _ hc1.2]

/-- C6 counterexample: the shared `mergeDeep` does NOT satisfy the
reference semantics ("otherwise source[key] wins") everywhere — when the
source value is an object but the target value under the same key is an
array, the code recurses anyway and returns the object-spread of the target
value (here `{}`), not the source value. -/
theorem merge_reference_semantics_counterexample :
    mergeDeepUpload (JValue.obj [("k", JValue.arr [])])
        (JValue.obj [("k", JValue.obj [("a", JValue.str "x")])]) =
      JValue.obj [("k", JValue.obj [])] ∧
    mergeSpec (JValue.obj [("k", JValue.arr [])])
        (JValue.obj [("k", JValue.obj [("a", JValue.str "x")])]) =
      JValue.obj [("k", JValue.obj [("a", JValue.str "x")])] ∧
    mergeDeepUpload (JValue.obj [("k", JValue.arr [])])
        (JValue.obj [("k", JValue.obj [("a", JValue.str "x")])]) ≠
      mergeSpec (JValue.obj [("k", JValue.arr [])])
        (JValue.obj [("k", JValue.obj [("a", JValue.str "x")])]) := by
  have h1 : mergeDeepUpload (JValue.obj [("k", JValue.arr [])])
      (JValue.obj [("k", JValue.obj [("a", JValue.str "x")])]) =
      JValue.obj [("k", JValue.obj [])] := by
    simp [mergeDeepUpload, mergeFieldsUpload, setKey, hasKey, getKey,
      isObject, spreadFields]
  have h2 : mergeSpec (JValue.obj [("k", JValue.arr [])])
      (JValue.obj [("k", JValue.obj [("a", JValue.str "x")])]) =
      JValue.obj [("k", JValue.obj [("a", JValue.str "x")])] := by
    simp [mergeSpec, mergeSpecFields, setKey, hasKey, getKey, isObject]
  refine ⟨h1, h2, ?_⟩
  rw [h1, h2]
  intro hEq
  simp at hEq

/-- C6 amended: the FormUpload and IdLookup `mergeDeep` copies are
extensionally equal, and they satisfy the reference semantics ("recurse
when both sides are non-array objects, otherwise source wins, target-only
keys survive") on all compatible inputs — those where an object-valued
source entry never meets a non-object target value, which holds for all the
mock records merged by the app. -/
theorem merge_implementations_agree_and_refine :
    (∀ t s : JValue, mergeDeepUpload t s = mergeDeepLookup t s) ∧
    (∀ t s : JValue, mergeCompat t s = true →
      mergeDeepUpload t s = mergeSpec t s) :=
  ⟨fun t s => (mergeUpload_eq_mergeLookup_aux (sizeOf s)).1 s le_rfl t,
   fun t s hc => (mergeUpload_eq_mergeSpec_aux (sizeOf s)).1 s le_rfl t hc⟩

/-- Concrete merge inputs for the C6 witness. -/
def jMergeTarget : JValue :=
  .obj [("a", .str "1"), ("b", .obj [("c", .str "2")])]

/-- Concrete merge source for the C6 witness. -/
def jMergeSource : JValue :=
  .obj [("b", .obj [("d", .str "3")]), ("e", .str "4")]

/-- Witness for the amended C6 at concrete compatible records. -/
theorem merge_implementations_agree_and_refine_witness :
    mergeCompat jMergeTarget jMergeSource = true ∧
    mergeDeepUpload jMergeTarget jMergeSource =
      mergeDeepLookup jMergeTarget jMergeSource ∧
    mergeDeepUpload jMergeTarget jMergeSource =
      mergeSpec jMergeTarget jMergeSource := by
  have hc : mergeCompat jMergeTarget jMergeSource = true := by
    simp [jMergeTarget, jMergeSource, mergeCompat, mergeCompatFields,
      hasKey, getKey, isObject]
  exact ⟨hc,
    merge_implementations_agree_and_refine.1 jMergeTarget jMergeSource,
    merge_implementations_agree_and_refine.2 jMergeTarget jMergeSource hc⟩
